import Mathlib

/-!
Shallow embedding of the core of the GH_CLI repository
(src/Source/forks.py, src/Source/stars-git.py, src/Source/repos.py):
selection parsing, paginated fetching, rate-limit guarding,
classification, and batch mutation with per-item accounting.

Machine integers are modelled as Int/Nat (Python ints are unbounded),
HTTP interactions as explicit outcome values, and process exit as
Option.none.
-/

/- ---------------- Selection parsing ----------------

forks.py parse_selection (lines 182-206) and stars-git.py
parse_selection (lines 272-287) both split the input on whitespace,
expand each token (an integer or a `start-end` range) and keep the
indices inside [1, max_index].  forks.py additionally swaps reversed
range endpoints and raises ValueError on a malformed token (modelled
as Option.none); stars-git.py does not swap, returns [] on a
malformed token, and sorts/deduplicates its result. -/

/-- Python's `str.split()`: maximal runs of non-whitespace characters,
with `acc` holding the current word reversed. -/
def pyWordsAux : List Char → List Char → List (List Char)
  | [], [] => []
  | [], acc => [acc.reverse]
  | c :: cs, acc =>
    if c.isWhitespace then
      if acc.isEmpty then pyWordsAux cs [] else acc.reverse :: pyWordsAux cs []
    else
      pyWordsAux cs (c :: acc)

/-- Python's `selection.split()` on the character list of the string. -/
def pyWords (s : String) : List (List Char) :=
  pyWordsAux s.toList []

/-- `not selection.strip()` in Python: the string is empty or all whitespace. -/
def isBlank (s : String) : Bool :=
  s.toList.all (fun c => c.isWhitespace)

/-- Python's `part.split('-')`: split at every dash, keeping empty pieces. -/
def splitOnDash : List Char → List (List Char)
  | [] => [[]]
  | c :: cs =>
    if c = '-' then
      [] :: splitOnDash cs
    else
      match splitOnDash cs with
      | [] => [[c]]
      | h :: t => (c :: h) :: t

/-- Accumulate the decimal value of a digit string; any non-digit fails
(Python `int` raises ValueError). -/
def digitsValAux : List Char → Nat → Option Nat
  | [], acc => some acc
  | c :: cs, acc =>
    if c.isDigit then digitsValAux cs (10 * acc + (c.toNat - 48)) else none

/-- Python's `int(token)` on a whitespace-free token: optional sign then a
nonempty digit string. -/
def pyIntChars : List Char → Option Int
  | [] => none
  | c :: cs =>
    if c = '-' then
      if cs.isEmpty then none else (digitsValAux cs 0).map (fun n => -(n : Int))
    else if c = '+' then
      if cs.isEmpty then none else (digitsValAux cs 0).map (fun n => (n : Int))
    else
      (digitsValAux (c :: cs) 0).map (fun n => (n : Int))

/-- Python's `range(s, e + 1)` over Int: the list s, s+1, ..., e
(empty when e < s). -/
def rangeInt (s e : Int) : List Int :=
  (List.range (e + 1 - s).toNat).map (fun i => s + i)

/-- One token of forks.py parse_selection: a range token has its endpoints
swapped when start > end (lines 189-194); a single token is one integer. -/
def forksToken (t : List Char) : Option (List Int) :=
  if t.contains '-' then
    match splitOnDash t with
    | [a, b] =>
      match pyIntChars a, pyIntChars b with
      | some s, some e => if s > e then some (rangeInt e s) else some (rangeInt s e)
      | _, _ => none
    | _ => none
  else
    (pyIntChars t).map (fun n => [n])

/-- One token of stars-git.py parse_selection: a range token expands
`range(start, end + 1)` with no endpoint swap (lines 275-281). -/
def starsToken (t : List Char) : Option (List Int) :=
  if t.contains '-' then
    match splitOnDash t with
    | [a, b] =>
      match pyIntChars a, pyIntChars b with
      | some s, some e => some (rangeInt s e)
      | _, _ => none
    | _ => none
  else
    (pyIntChars t).map (fun n => [n])

/-- The `result.extend(...)` loop over tokens: concatenate the expansions,
failing (ValueError) as soon as one token fails. -/
def tokensExpand (f : List Char → Option (List Int)) : List (List Char) → Option (List Int)
  | [] => some []
  | t :: ts =>
    match f t, tokensExpand f ts with
    | some xs, some rest => some (xs ++ rest)
    | _, _ => none

/-- forks.py parse_selection (lines 182-206): blank input returns [] at
once; a malformed token raises ValueError (none); in-range indices are
kept in token order, unsorted and with duplicates. -/
def forks_parse_selection (selection : String) (maxIndex : Int) : Option (List Int) :=
  if isBlank selection then some []
  else
    match tokensExpand forksToken (pyWords selection) with
    | none => none
    | some result => some (result.filter fun i => decide (1 ≤ i ∧ i ≤ maxIndex))

/-- stars-git.py parse_selection (lines 272-287): a malformed token is
caught and [] returned; otherwise `sorted(set(...))` of the in-range
indices. -/
def stars_parse_selection (selection : String) (maxIndex : Int) : List Int :=
  match tokensExpand starsToken (pyWords selection) with
  | none => []
  | some result =>
    List.insertionSort (· ≤ ·) ((result.filter fun i => decide (1 ≤ i ∧ i ≤ maxIndex)).dedup)

/- ---------------- Paginated fetching ----------------

The page source is modelled as the list of responses the API gives to
pages 1, 2, 3, ...: each request either succeeds with a list of
records (`Page.ok`) or fails with a transport/HTTP error (`Page.err`).
Requests past the end of the list return an empty page. -/

/-- Outcome of one page request. -/
inductive Page (α : Type) where
  | ok (repos : List α)
  | err
deriving DecidableEq

/-- The fields of an owned-repository record that forks.py reads. -/
structure ForkRepo where
  full_name : String
  fork : Bool
deriving DecidableEq

/-- The fields of a starred-repository record that stars-git.py's
streaming filter reads; `topicsResult` is the outcome of the extra
per-record topics request (none = that lookup raised). -/
structure StarRepo where
  full_name : String
  language : Option String
  topicsResult : Option (List String)
deriving DecidableEq

/-- forks.py fetch_forks (lines 132-167): request pages until an empty
page; each page is filtered to forks and accumulated; a request error
calls sys.exit(1), modelled as none.  The second component counts the
page requests issued. -/
def fetch_forks : List (Page ForkRepo) → Option (List ForkRepo × Nat)
  | [] => some ([], 1)
  | Page.err :: _ => none
  | Page.ok repos :: rest =>
    if repos.isEmpty then some ([], 1)
    else (fetch_forks rest).map (fun p => (repos.filter (fun r => r.fork) ++ p.1, p.2 + 1))

/-- Python truthiness of an Optional[str]: None and the empty string are
falsy. -/
def pyTruthyStr : Option String → Bool
  | none => false
  | some s => !s.isEmpty

/-- Python's `str.lower()`: lower-case character by character. -/
def pyLower (s : String) : String :=
  String.mk (s.data.map Char.toLower)

/-- The per-record streaming filter of stars-git.py fetch_starred_repos
(lines 174-197): skip a record whose language is present and differs
case-insensitively from an active language filter; under an active
topic filter, keep only records whose topics lookup succeeds and
contains the topic case-insensitively (a failed lookup skips the
record). -/
def keepStarRepo (lf tf : Option String) (r : StarRepo) : Bool :=
  if pyTruthyStr lf && pyTruthyStr r.language
      && !(pyLower (r.language.getD "") == pyLower (lf.getD "")) then
    false
  else if pyTruthyStr tf then
    match r.topicsResult with
    | none => false
    | some ts => (ts.map (fun t => pyLower t)).contains (pyLower (tf.getD ""))
  else
    true

/-- stars-git.py fetch_starred_repos (lines 144-225): request pages,
stopping on an empty page or a page of fewer than 100 records; the
filtered branch is taken when either filter is truthy; a page-request
error is caught (lines 213-221) and the records accumulated so far are
returned.  The rate-limit check before each request (line 155) never
raises and does not alter the data flow, so it is not represented.
The second component counts the page requests issued. -/
def fetch_starred_repos (lf tf : Option String) : List (Page StarRepo) → List StarRepo × Nat
  | [] => ([], 1)
  | Page.err :: _ => ([], 1)
  | Page.ok repos :: rest =>
    if repos.isEmpty then ([], 1)
    else
      let pageRepos :=
        if pyTruthyStr lf || pyTruthyStr tf then repos.filter (keepStarRepo lf tf) else repos
      if repos.length < 100 then (pageRepos, 1)
      else
        let p := fetch_starred_repos lf tf rest
        (pageRepos ++ p.1, p.2 + 1)

/- ---------------- Rate-limit guard ----------------

stars-git.py check_rate_limit (lines 47-67).  The world is modelled as
the sequence of states seen at successive quota queries: each query
either fails or returns (remaining, reset) together with the current
clock.  The result carries the returned pair and the list of sleep
durations performed; none means the recursion outran the supplied
trace. -/

/-- One quota query: failure, or (remaining, reset) plus the clock `now`. -/
inductive QuotaStep where
  | qfail
  | qok (remaining reset now : Int)
deriving DecidableEq

/-- stars-git.py check_rate_limit: on a failed query return the
conservative default (1000, 0); with remaining < 5 and a positive
wait = reset - now + 5, sleep wait and re-check; otherwise return
(remaining, reset). -/
def check_rate_limit : List QuotaStep → Option (Int × Int × List Int)
  | [] => none
  | QuotaStep.qfail :: _ => some (1000, 0, [])
  | QuotaStep.qok rem reset now :: rest =>
    if rem < 5 then
      if reset - now + 5 > 0 then
        (check_rate_limit rest).map (fun x => (x.1, x.2.1, (reset - now + 5) :: x.2.2))
      else some (rem, reset, [])
    else some (rem, reset, [])

/- ---------------- Classification ----------------

repos.py GitHubManager.fetch_repositories, classification loop
(lines 250-259). -/

/-- The repos.py Repository dataclass (visibility is derived from
`priv`, so not stored separately here); `priv` renders the Python
field `private`, which is a reserved word in Lean. -/
structure Repository where
  name : String
  full_name : String
  priv : Bool
  fork : Bool
  stars : Nat
  forks : Nat
deriving DecidableEq

/-- The classification loop of repos.py fetch_repositories: fork wins
over private, private over public; order within a category preserves
fetch order.  Result: (Public, Private, Fork). -/
def classify_repositories : List Repository → List Repository × List Repository × List Repository
  | [] => ([], [], [])
  | r :: rest =>
    let c := classify_repositories rest
    if r.fork then (c.1, c.2.1, r :: c.2.2)
    else if r.priv then (c.1, r :: c.2.1, c.2.2)
    else (r :: c.1, c.2.1, c.2.2)

/- ---------------- Batch mutation ----------------

forks.py _delete_repos (lines 271-316), stars-git.py remove_stars
(lines 289-323), repos.py _batch_change_visibility (lines 470-493).
The world is modelled as the list of per-item HTTP outcomes: a status
code, or a transport exception. -/

/-- Outcome of one single-item mutation request. -/
inductive MutResult where
  | status (code : Nat)
  | exc
deriving DecidableEq

/-- The tally a batch run produces: counters, the per-item verdicts in
input order, and the number of pacing sleeps performed. -/
structure BatchOutcome where
  successCount : Nat
  failureCount : Nat
  perItem : List Bool
  sleeps : Nat
deriving DecidableEq

/-- forks.py counts a deletion as successful exactly on HTTP 204
(line 285). -/
def deleteSuccess : MutResult → Bool
  | MutResult.status c => c == 204
  | MutResult.exc => false

/-- stars-git.py counts an unstar as successful exactly on HTTP 204 or
200 (line 307). -/
def unstarSuccess : MutResult → Bool
  | MutResult.status c => c == 204 || c == 200
  | MutResult.exc => false

/-- repos.py change_repository_visibility succeeds iff
raise_for_status does not raise, i.e. the status is below 400
(lines 336-356). -/
def visibilitySuccess : MutResult → Bool
  | MutResult.status c => c < 400
  | MutResult.exc => false

/-- forks.py _delete_repos: classify each item in order, never aborting;
sleep after every item except the last (line 304: `if i < len(repos)`). -/
def delete_repos : List MutResult → BatchOutcome
  | [] => ⟨0, 0, [], 0⟩
  | r :: rest =>
    let o := delete_repos rest
    let succ := deleteSuccess r
    ⟨(if succ then 1 else 0) + o.successCount,
     (if succ then 0 else 1) + o.failureCount,
     succ :: o.perItem,
     (if rest.isEmpty then 0 else 1) + o.sleeps⟩

/-- stars-git.py remove_stars: classify each item in order, never
aborting; sleep unconditionally after every item (line 321). -/
def remove_stars : List MutResult → BatchOutcome
  | [] => ⟨0, 0, [], 0⟩
  | r :: rest =>
    let o := remove_stars rest
    let succ := unstarSuccess r
    ⟨(if succ then 1 else 0) + o.successCount,
     (if succ then 0 else 1) + o.failureCount,
     succ :: o.perItem,
     1 + o.sleeps⟩

/-- repos.py _batch_change_visibility: classify each item in order,
never aborting; sleep unconditionally after every item (line 489). -/
def batch_change_visibility : List MutResult → BatchOutcome
  | [] => ⟨0, 0, [], 0⟩
  | r :: rest =>
    let o := batch_change_visibility rest
    let succ := visibilitySuccess r
    ⟨(if succ then 1 else 0) + o.successCount,
     (if succ then 0 else 1) + o.failureCount,
     succ :: o.perItem,
     1 + o.sleeps⟩

/- ---------------- Helper lemmas: batch mutators ---------------- -/

lemma delete_repos_cons (r : MutResult) (rest : List MutResult) :
    delete_repos (r :: rest) =
      ⟨(if deleteSuccess r then 1 else 0) + (delete_repos rest).successCount,
       (if deleteSuccess r then 0 else 1) + (delete_repos rest).failureCount,
       deleteSuccess r :: (delete_repos rest).perItem,
       (if rest.isEmpty then 0 else 1) + (delete_repos rest).sleeps⟩ := rfl

lemma remove_stars_cons (r : MutResult) (rest : List MutResult) :
    remove_stars (r :: rest) =
      ⟨(if unstarSuccess r then 1 else 0) + (remove_stars rest).successCount,
       (if unstarSuccess r then 0 else 1) + (remove_stars rest).failureCount,
       unstarSuccess r :: (remove_stars rest).perItem,
       1 + (remove_stars rest).sleeps⟩ := rfl

lemma batch_change_visibility_cons (r : MutResult) (rest : List MutResult) :
    batch_change_visibility (r :: rest) =
      ⟨(if visibilitySuccess r then 1 else 0) + (batch_change_visibility rest).successCount,
       (if visibilitySuccess r then 0 else 1) + (batch_change_visibility rest).failureCount,
       visibilitySuccess r :: (batch_change_visibility rest).perItem,
       1 + (batch_change_visibility rest).sleeps⟩ := rfl

lemma delete_repos_sum (items : List MutResult) :
    (delete_repos items).successCount + (delete_repos items).failureCount = items.length := by
  induction items with
  | nil => rfl
  | cons r rest ih =>
    cases h : deleteSuccess r <;> simp [delete_repos_cons, h] <;> omega

lemma remove_stars_sum (items : List MutResult) :
    (remove_stars items).successCount + (remove_stars items).failureCount = items.length := by
  induction items with
  | nil => rfl
  | cons r rest ih =>
    cases h : unstarSuccess r <;> simp [remove_stars_cons, h] <;> omega

lemma delete_repos_perItem (items : List MutResult) :
    (delete_repos items).perItem = items.map deleteSuccess := by
  induction items with
  | nil => rfl
  | cons r rest ih => simp [delete_repos_cons, ih]

lemma remove_stars_perItem (items : List MutResult) :
    (remove_stars items).perItem = items.map unstarSuccess := by
  induction items with
  | nil => rfl
  | cons r rest ih => simp [remove_stars_cons, ih]

lemma remove_stars_success_filter (items : List MutResult) :
    (remove_stars items).successCount = (items.filter unstarSuccess).length ∧
    (remove_stars items).failureCount = (items.filter (fun r => !unstarSuccess r)).length := by
  induction items with
  | nil => exact ⟨rfl, rfl⟩
  | cons r rest ih =>
    cases h : unstarSuccess r <;>
      simp [remove_stars_cons, h, List.filter_cons, ih.1, ih.2] <;> omega

lemma delete_repos_sleeps (items : List MutResult) :
    (delete_repos items).sleeps = items.length - 1 := by
  induction items with
  | nil => rfl
  | cons r rest ih =>
    rw [delete_repos_cons]
    cases rest with
    | nil => rfl
    | cons x xs =>
      have h := ih
      simp at h ⊢
      omega

lemma remove_stars_sleeps (items : List MutResult) :
    (remove_stars items).sleeps = items.length := by
  induction items with
  | nil => rfl
  | cons r rest ih => rw [remove_stars_cons]; simp [ih]; omega

lemma batch_change_visibility_sleeps (items : List MutResult) :
    (batch_change_visibility items).sleeps = items.length := by
  induction items with
  | nil => rfl
  | cons r rest ih => rw [batch_change_visibility_cons]; simp [ih]; omega

/- ---------------- Claim theorems: C3, C8, C10, C4 ---------------- -/

/-- C3: the batch mutators (_delete_repos, remove_stars) process every
item in input order regardless of individual outcomes — each item is
classified success or failure and the run continues — and at the end
successCount + failureCount equals the number of items; in particular
over 5 items where items 2 and 4 fail they yield successCount = 3,
failureCount = 2 with all 5 items attempted. -/
theorem batch_mutator_processes_all_items :
    (∀ items : List MutResult,
      (delete_repos items).successCount + (delete_repos items).failureCount = items.length ∧
      (delete_repos items).perItem = items.map deleteSuccess ∧
      (remove_stars items).successCount + (remove_stars items).failureCount = items.length ∧
      (remove_stars items).perItem = items.map unstarSuccess) ∧
    delete_repos [MutResult.status 204, MutResult.status 403, MutResult.status 204,
        MutResult.exc, MutResult.status 204] =
      ⟨3, 2, [true, false, true, false, true], 4⟩ ∧
    remove_stars [MutResult.status 204, MutResult.status 500, MutResult.status 200,
        MutResult.exc, MutResult.status 204] =
      ⟨3, 2, [true, false, true, false, true], 5⟩ := by
  refine ⟨fun items => ⟨delete_repos_sum items, delete_repos_perItem items,
    remove_stars_sum items, remove_stars_perItem items⟩, by decide, by decide⟩

/-- C8 counterexample: remove_stars performs a pacing sleep after the
final (here the only) item of the batch, where the claim requires no
sleep after the final item (0 sleeps for a 1-item batch). -/
theorem remove_stars_sleeps_after_final_item :
    remove_stars [MutResult.status 204] = ⟨1, 0, [true], 1⟩ ∧ (1 : Nat) ≠ 0 :=
  ⟨by decide, by decide⟩

/-- C8 amended: only forks.py _delete_repos skips the pacing sleep after
the final item (n - 1 sleeps for n items); stars-git.py remove_stars and
repos.py _batch_change_visibility sleep after every item including the
last (n sleeps for n items). -/
theorem pacing_sleep_counts :
    ∀ items : List MutResult,
      (delete_repos items).sleeps = items.length - 1 ∧
      (remove_stars items).sleeps = items.length ∧
      (batch_change_visibility items).sleeps = items.length :=
  fun items => ⟨delete_repos_sleeps items, remove_stars_sleeps items,
    batch_change_visibility_sleeps items⟩

/-- C10: remove_stars classifies a per-item unstar request as successful
exactly when the HTTP status is 204 or 200; every other status and every
transport exception is counted as a failure for that item. -/
theorem unstar_success_iff_204_or_200 :
    (∀ items : List MutResult,
      (remove_stars items).successCount = (items.filter unstarSuccess).length ∧
      (remove_stars items).failureCount =
        (items.filter (fun r => !unstarSuccess r)).length) ∧
    unstarSuccess (MutResult.status 204) = true ∧
    unstarSuccess (MutResult.status 200) = true ∧
    unstarSuccess MutResult.exc = false ∧
    (∀ c : Nat, c ≠ 204 → c ≠ 200 → unstarSuccess (MutResult.status c) = false) := by
  refine ⟨remove_stars_success_filter, rfl, rfl, rfl, fun c h1 h2 => ?_⟩
  simp [unstarSuccess]
  omega

/-- C10 witness: a 404 status is counted as a failure. -/
theorem unstar_success_iff_204_or_200_witness :
    unstarSuccess (MutResult.status 404) = false :=
  unstar_success_iff_204_or_200.2.2.2.2 404 (by decide) (by decide)

/-- A record that is both a fork and private, for the precedence part of
the classification claim. -/
def forkAndPrivateRepo : Repository :=
  { name := "r", full_name := "o/r", priv := true, fork := true, stars := 0, forks := 0 }

/-- C4: classification is a strict partition — every fetched record lands
in exactly one of Public/Private/Fork (the three lists are the three
complementary filters of the input, and their lengths sum to the input
length), and a record with fork = true goes to Fork regardless of
private, as the concrete fork-and-private record shows. -/
theorem classification_partition :
    (∀ records : List Repository,
      (classify_repositories records).2.2 = records.filter (fun r => r.fork) ∧
      (classify_repositories records).2.1 = records.filter (fun r => !r.fork && r.priv) ∧
      (classify_repositories records).1 = records.filter (fun r => !r.fork && !r.priv) ∧
      (classify_repositories records).1.length + (classify_repositories records).2.1.length +
        (classify_repositories records).2.2.length = records.length) ∧
    classify_repositories [forkAndPrivateRepo] = ([], [], [forkAndPrivateRepo]) := by
  refine ⟨fun records => ?_, by decide⟩
  induction records with
  | nil => exact ⟨rfl, rfl, rfl, rfl⟩
  | cons r rest ih =>
    obtain ⟨h1, h2, h3, h4⟩ := ih
    refine ⟨?_, ?_, ?_, ?_⟩
    · cases hf : r.fork <;> cases hp : r.priv <;>
        simp [classify_repositories, hf, hp, h1, List.filter_cons]
    · cases hf : r.fork <;> cases hp : r.priv <;>
        simp [classify_repositories, hf, hp, h2, List.filter_cons]
    · cases hf : r.fork <;> cases hp : r.priv <;>
        simp [classify_repositories, hf, hp, h3, List.filter_cons]
    · cases hf : r.fork <;> cases hp : r.priv <;>
        simp [classify_repositories, hf, hp]
      all_goals omega

/- ---------------- Helper lemmas: pagination ---------------- -/

lemma join_replicate_length {α : Type} (N : Nat) (l : List α) :
    (List.replicate N l).flatten.length = N * l.length := by
  induction N with
  | zero => simp
  | succ n ih => simp [List.replicate_succ, ih]; ring

lemma fetch_starred_cons_full (full : List StarRepo) (h100 : full.length = 100)
    (rest : List (Page StarRepo)) :
    fetch_starred_repos none none (Page.ok full :: rest) =
      (full ++ (fetch_starred_repos none none rest).1,
       (fetch_starred_repos none none rest).2 + 1) := by
  have hne : full.isEmpty = false := by cases full <;> simp_all
  have hlt : ¬ full.length < 100 := by omega
  simp [fetch_starred_repos, hne, hlt, pyTruthyStr]

lemma fetch_starred_full_pages (N : Nat) (full : List StarRepo) (h100 : full.length = 100)
    (tail : List (Page StarRepo)) :
    fetch_starred_repos none none (List.replicate N (Page.ok full) ++ tail) =
      ((List.replicate N full).flatten ++ (fetch_starred_repos none none tail).1,
       (fetch_starred_repos none none tail).2 + N) := by
  induction N with
  | zero => simp
  | succ n ih =>
    simp only [List.replicate_succ, List.cons_append, List.flatten_cons,
      fetch_starred_cons_full full h100, ih, List.append_assoc, Nat.add_assoc]

lemma fetch_starred_short_page (short : List StarRepo) (hshort : short.length < 100) :
    fetch_starred_repos none none [Page.ok short] = (short, 1) := by
  cases short with
  | nil => rfl
  | cons a as =>
    have h2 : as.length < 99 := by simp at hshort; omega
    simp [fetch_starred_repos, pyTruthyStr, h2]

lemma fetch_forks_cons (full : List ForkRepo) (hne : full ≠ [])
    (rest : List (Page ForkRepo)) :
    fetch_forks (Page.ok full :: rest) =
      (fetch_forks rest).map (fun p => (full.filter (fun r => r.fork) ++ p.1, p.2 + 1)) := by
  have h : full.isEmpty = false := by cases full <;> simp_all
  simp [fetch_forks, h]

lemma fetch_forks_full_pages (N : Nat) (full : List ForkRepo) (hne : full ≠ [])
    (tail : List (Page ForkRepo)) :
    fetch_forks (List.replicate N (Page.ok full) ++ tail) =
      (fetch_forks tail).map
        (fun p => ((List.replicate N full).flatten.filter (fun r => r.fork) ++ p.1,
          p.2 + N)) := by
  induction N with
  | zero =>
    cases h : fetch_forks tail <;> simp [h]
  | succ n ih =>
    simp only [List.replicate_succ, List.cons_append, fetch_forks_cons full hne, ih,
      Option.map_map]
    cases h : fetch_forks tail with
    | none => simp
    | some p =>
      simp [List.filter_append, List.append_assoc, Function.comp]
      omega

/- ---------------- Claim theorems: C2, C5 ---------------- -/

/-- A starred-repository record used in concrete instances. -/
def sampleStar : StarRepo := { full_name := "o/r", language := none, topicsResult := none }

/-- An owned fork record used in concrete instances. -/
def sampleFork : ForkRepo := { full_name := "o/r", fork := true }

/-- C2 counterexample: with N = 0 full pages and one terminating short
page of k = 1 record, fetch_forks issues 2 page requests — one beyond
the terminating page — where the claim allows at most N + 1 = 1. -/
theorem fetch_forks_requests_beyond_short_page :
    fetch_forks [Page.ok [sampleFork]] = some ([sampleFork], 2) ∧ ¬ (2 ≤ 0 + 1) :=
  ⟨by decide, by decide⟩

/-- C2 amended: over N full pages of 100 records then one short page of
k < 100 records, both fetches terminate and process exactly 100*N + k
records; fetch_starred_repos stops at the short page, issuing exactly
N + 1 requests, while fetch_forks stops only at an empty page, so it
issues N + 1 requests when k = 0 but N + 2 requests when k > 0
(returning the fork-filtered records). -/
theorem paginated_fetch_counts :
    ∀ (N : Nat) (full short : List StarRepo) (fullF shortF : List ForkRepo),
      full.length = 100 → short.length < 100 → fullF.length = 100 → shortF.length < 100 →
      fetch_starred_repos none none (List.replicate N (Page.ok full) ++ [Page.ok short]) =
        ((List.replicate N full).flatten ++ short, N + 1) ∧
      ((List.replicate N full).flatten ++ short).length = 100 * N + short.length ∧
      fetch_forks (List.replicate N (Page.ok fullF) ++ [Page.ok shortF]) =
        some (((List.replicate N fullF).flatten ++ shortF).filter (fun r => r.fork),
          if shortF.isEmpty then N + 1 else N + 2) := by
  intro N full short fullF shortF h100 hshort hf100 hfshort
  have hne : fullF ≠ [] := by intro h; rw [h] at hf100; simp at hf100
  refine ⟨?_, ?_, ?_⟩
  · rw [fetch_starred_full_pages N full h100, fetch_starred_short_page short hshort]
    simp [Nat.add_comm]
  · simp [join_replicate_length, h100, Nat.mul_comm]
  · rw [fetch_forks_full_pages N fullF hne]
    cases shortF with
    | nil =>
      have h : fetch_forks [Page.ok ([] : List ForkRepo)] = some ([], 1) := rfl
      rw [h]
      simp [Nat.add_comm]
    | cons a as =>
      have h : fetch_forks [Page.ok (a :: as)] =
          some ((a :: as).filter (fun r => r.fork), 2) := by
        rw [fetch_forks_cons (a :: as) (by simp) []]
        simp [fetch_forks]
      rw [h]
      simp [List.filter_append, Nat.add_comm]

/-- C2 witness: one full page of 100 records then an empty page; the
starred fetch returns the 100 records with 2 requests, and the forks
fetch likewise stops after 2 requests. -/
theorem paginated_fetch_counts_witness :
    fetch_starred_repos none none
        (List.replicate 1 (Page.ok (List.replicate 100 sampleStar)) ++ [Page.ok []]) =
      ((List.replicate 1 (List.replicate 100 sampleStar)).flatten ++ [], 1 + 1) ∧
    fetch_forks (List.replicate 1 (Page.ok (List.replicate 100 sampleFork)) ++ [Page.ok []]) =
      some (((List.replicate 1 (List.replicate 100 sampleFork)).flatten ++ []).filter
          (fun r => r.fork),
        if ([] : List ForkRepo).isEmpty then 1 + 1 else 1 + 2) := by
  have h := paginated_fetch_counts 1 (List.replicate 100 sampleStar) []
    (List.replicate 100 sampleFork) [] (by simp) (by decide) (by simp) (by decide)
  exact ⟨h.1, h.2.2⟩

/-- C5 counterexample: a page-request error on page 2 of the starred
fetch is caught, and the 100 records accumulated from page 1 are
returned to the caller as the (nonempty, partially accumulated)
result. -/
theorem fetch_starred_error_swallowed :
    fetch_starred_repos none none [Page.ok (List.replicate 100 sampleStar), Page.err] =
      (List.replicate 100 sampleStar, 2) ∧ List.replicate 100 sampleStar ≠ [] :=
  ⟨by decide, by decide⟩

/-- C5 amended: a transport/HTTP error on a page request is terminal for
fetch_forks, which aborts the process (none) with no value returned;
fetch_starred_repos instead catches the error and returns the records
accumulated from the pages before it, a partially accumulated result
presented like a normal one. -/
theorem fetch_error_termination :
    ∀ (N : Nat) (full : List ForkRepo) (fullS : List StarRepo)
      (rest : List (Page ForkRepo)) (restS : List (Page StarRepo)),
      full ≠ [] → fullS.length = 100 →
      fetch_forks (List.replicate N (Page.ok full) ++ Page.err :: rest) = none ∧
      fetch_starred_repos none none (List.replicate N (Page.ok fullS) ++ Page.err :: restS) =
        ((List.replicate N fullS).flatten, N + 1) := by
  intro N full fullS rest restS hne h100
  constructor
  · rw [fetch_forks_full_pages N full hne]
    rfl
  · have he : fetch_starred_repos none none (Page.err :: restS) = ([], 1) := rfl
    rw [fetch_starred_full_pages N fullS h100]
    simp [he, Nat.add_comm]

/-- C5 witness: one successful full page then an erroring page — the
forks fetch aborts with no result; the starred fetch returns the first
page's 100 records. -/
theorem fetch_error_termination_witness :
    fetch_forks (List.replicate 1 (Page.ok (List.replicate 100 sampleFork)) ++ [Page.err]) =
        none ∧
    fetch_starred_repos none none
        (List.replicate 1 (Page.ok (List.replicate 100 sampleStar)) ++ [Page.err]) =
      ((List.replicate 1 (List.replicate 100 sampleStar)).flatten, 1 + 1) :=
  fetch_error_termination 1 (List.replicate 100 sampleFork) (List.replicate 100 sampleStar)
    [] [] (by simp) (by simp)

/- ---------------- Claim theorems: C7, C9 ---------------- -/

/-- C7: check_rate_limit returns the conservative default (1000, 0) on a
failed quota query instead of raising; on a successful query with
remaining ≥ 5 it returns (remaining, reset) with no sleep; with
remaining < 5 and positive wait = reset - now + 5 it sleeps wait and
re-checks, prepending the sleep to the recursive outcome; with a
non-positive wait it returns (remaining, reset) without sleeping. -/
theorem check_rate_limit_guard :
    ∀ (rest : List QuotaStep) (rem reset now : Int),
      check_rate_limit (QuotaStep.qfail :: rest) = some (1000, 0, []) ∧
      (5 ≤ rem →
        check_rate_limit (QuotaStep.qok rem reset now :: rest) = some (rem, reset, [])) ∧
      (rem < 5 → 0 < reset - now + 5 →
        check_rate_limit (QuotaStep.qok rem reset now :: rest) =
          (check_rate_limit rest).map
            (fun x => (x.1, x.2.1, (reset - now + 5) :: x.2.2))) ∧
      (rem < 5 → reset - now + 5 ≤ 0 →
        check_rate_limit (QuotaStep.qok rem reset now :: rest) = some (rem, reset, [])) := by
  intro rest rem reset now
  refine ⟨rfl, fun h5 => ?_, fun hlt hpos => ?_, fun hlt hnp => ?_⟩
  · have h : ¬ rem < 5 := by omega
    simp [check_rate_limit, h]
  · simp [check_rate_limit, hlt, hpos]
  · have h : ¬ reset - now + 5 > 0 := by omega
    simp [check_rate_limit, hlt, h]

/-- C7 witness: a query showing 3 remaining with reset 50s ahead sleeps
55s and re-checks, then returns the safe quota; a failing query returns
(1000, 0) at once. -/
theorem check_rate_limit_guard_witness :
    check_rate_limit [QuotaStep.qok 3 100 50, QuotaStep.qok 100 0 0] = some (100, 0, [55]) ∧
    check_rate_limit [QuotaStep.qfail] = some (1000, 0, []) := by
  have h1 := (check_rate_limit_guard [QuotaStep.qok 100 0 0] 3 100 50).2.2.1
    (by decide) (by decide)
  have h2 := (check_rate_limit_guard [] 100 0 0).2.1 (by decide)
  refine ⟨?_, (check_rate_limit_guard [] 1000 0 0).1⟩
  rw [h1, h2]
  decide

/-- C9: under an active language filter and inactive topic filter, the
streaming per-record filter of fetch_starred_repos keeps a record whose
language field is null; a record is excluded exactly when it has a
(truthy) language differing case-insensitively from the filter; and a
fetched page contributes precisely its keepStarRepo-filtered records. -/
theorem language_filter_null_included :
    ∀ (lf : String) (tf : Option String) (r : StarRepo) (repos : List StarRepo),
      pyTruthyStr (some lf) = true → pyTruthyStr tf = false →
      (r.language = none → keepStarRepo (some lf) tf r = true) ∧
      (keepStarRepo (some lf) tf r = false ↔
        ∃ l, r.language = some l ∧ l.isEmpty = false ∧ pyLower l ≠ pyLower lf) ∧
      (repos ≠ [] → repos.length < 100 →
        fetch_starred_repos (some lf) tf [Page.ok repos] =
          (repos.filter (keepStarRepo (some lf) tf), 1)) := by
  intro lf tf r repos hlf htf
  have hlf' : lf.isEmpty = false := by
    by_contra h
    simp at h
    simp [pyTruthyStr, h] at hlf
  refine ⟨fun hnone => ?_, ?_, fun hne hlen => ?_⟩
  · simp only [keepStarRepo]
    rw [hnone, htf]
    simp [pyTruthyStr]
  · cases hl : r.language with
    | none =>
      simp only [keepStarRepo]
      rw [hl, htf]
      simp [pyTruthyStr]
    | some l =>
      cases he : l.isEmpty with
      | true =>
        simp only [keepStarRepo]
        rw [hl, htf]
        simp [pyTruthyStr, he]
      | false =>
        simp only [keepStarRepo]
        rw [hl, htf]
        simp [pyTruthyStr, he, hlf']
  · cases repos with
    | nil => exact absurd rfl hne
    | cons a as =>
      have h2 : as.length < 99 := by simp at hlen; omega
      simp [fetch_starred_repos, hlf, htf, h2]

/-- C9 witness: with language filter "Python" and no topic filter, a
record with null language is kept while a record with language "Go" is
excluded. -/
theorem language_filter_null_included_witness :
    keepStarRepo (some "Python") none
      { full_name := "a/b", language := none, topicsResult := none } = true ∧
    keepStarRepo (some "Python") none
      { full_name := "a/c", language := some "Go", topicsResult := none } = false := by
  constructor
  · exact (language_filter_null_included "Python" none
      { full_name := "a/b", language := none, topicsResult := none } [] (by decide) rfl).1 rfl
  · exact (language_filter_null_included "Python" none
      { full_name := "a/c", language := some "Go", topicsResult := none } [] (by decide)
      rfl).2.1.mpr ⟨"Go", rfl, by decide, by decide⟩

/- ---------------- Helper lemmas: selection parsing ---------------- -/

lemma pyWordsAux_blank : ∀ cs : List Char, (∀ c ∈ cs, c.isWhitespace) → pyWordsAux cs [] = [] := by
  intro cs h
  induction cs with
  | nil => rfl
  | cons c cs ih =>
    have hc : c.isWhitespace := h c (List.mem_cons_self _ _)
    have h2 : ∀ x ∈ cs, x.isWhitespace := fun x hx => h x (List.mem_cons_of_mem _ hx)
    simp [pyWordsAux, hc, ih h2]

lemma pyWords_blank (s : String) (h : isBlank s = true) : pyWords s = [] := by
  apply pyWordsAux_blank
  simpa [isBlank, List.all_eq_true] using h

lemma stars_parse_blank (s : String) (maxIndex : Int) (h : isBlank s = true) :
    stars_parse_selection s maxIndex = [] := by
  simp [stars_parse_selection, pyWords_blank s h, tokensExpand]

lemma splitOnDash_no_dash (cs : List Char) (h : ¬ '-' ∈ cs) : splitOnDash cs = [cs] := by
  induction cs with
  | nil => rfl
  | cons c cs ih =>
    have hc : ¬ c = '-' := by intro hh; subst hh; exact h (List.mem_cons_self _ _)
    have h2 : ¬ '-' ∈ cs := fun hh => h (List.mem_cons_of_mem _ hh)
    simp [splitOnDash, hc, ih h2]

lemma splitOnDash_append (a b : List Char) (ha : ¬ '-' ∈ a) (hb : ¬ '-' ∈ b) :
    splitOnDash (a ++ '-' :: b) = [a, b] := by
  induction a with
  | nil => simp [splitOnDash, splitOnDash_no_dash b hb]
  | cons c cs ih =>
    have hc : ¬ c = '-' := by intro hh; subst hh; exact ha (List.mem_cons_self _ _)
    have h2 : ¬ '-' ∈ cs := fun hh => ha (List.mem_cons_of_mem _ hh)
    simp [splitOnDash, hc, ih h2]

lemma contains_dash (a b : List Char) : (a ++ '-' :: b).contains '-' = true := by
  induction a with
  | nil => rfl
  | cons c cs ih => simp_all [List.contains_cons]

lemma forksToken_append_swap (a b : List Char) (s e : Int)
    (ha : ¬ '-' ∈ a) (hb : ¬ '-' ∈ b)
    (hs : pyIntChars a = some s) (he : pyIntChars b = some e) (hlt : e < s) :
    forksToken (a ++ '-' :: b) = some (rangeInt e s) ∧
    starsToken (a ++ '-' :: b) = some [] := by
  have hc := contains_dash a b
  have hsplit := splitOnDash_append a b ha hb
  constructor
  · simp [forksToken, hc, hsplit, hs, he, hlt]
  · have h0 : (e + 1 - s).toNat = 0 := by omega
    simp [starsToken, hc, hsplit, hs, he, rangeInt, h0]

/- ---------------- Claim theorems: C1, C6 ---------------- -/

/-- C1 counterexample: forks.py parse_selection on input "1 1" with
maxIndex 10 returns [1, 1], which contains a duplicate, so its result
is not a strictly ascending duplicate-free list. -/
theorem forks_parse_selection_duplicate :
    forks_parse_selection "1 1" 10 = some [1, 1] ∧ ¬ ([1, 1] : List Int).Nodup :=
  ⟨by decide, by decide⟩

/-- C1 amended: stars-git.py parse_selection always returns a strictly
ascending, duplicate-free list of indices in [1, maxIndex]; forks.py
parse_selection keeps its in-range indices in token order, possibly
unsorted and with duplicates; both return [] on empty or
whitespace-only input without error. -/
theorem parse_selection_bounds_sorted :
    ∀ (sel : String) (maxI : Int),
      (stars_parse_selection sel maxI).Pairwise (· < ·) ∧
      (∀ i ∈ stars_parse_selection sel maxI, 1 ≤ i ∧ i ≤ maxI) ∧
      (∀ l, forks_parse_selection sel maxI = some l → ∀ i ∈ l, 1 ≤ i ∧ i ≤ maxI) ∧
      (isBlank sel = true →
        forks_parse_selection sel maxI = some [] ∧ stars_parse_selection sel maxI = []) := by
  intro sel maxI
  refine ⟨?_, ?_, ?_, fun hb => ⟨?_, stars_parse_blank sel maxI hb⟩⟩
  · unfold stars_parse_selection
    cases tokensExpand starsToken (pyWords sel) with
    | none => exact List.Pairwise.nil
    | some result =>
      have hs := List.sorted_insertionSort (· ≤ ·)
        ((result.filter fun i => decide (1 ≤ i ∧ i ≤ maxI)).dedup)
      have hn : (List.insertionSort (· ≤ ·)
          ((result.filter fun i => decide (1 ≤ i ∧ i ≤ maxI)).dedup)).Nodup :=
        (List.perm_insertionSort (· ≤ ·) _).nodup_iff.mpr (List.nodup_dedup _)
      exact (hs.and hn).imp fun h => lt_of_le_of_ne h.1 h.2
  · intro i hi
    unfold stars_parse_selection at hi
    cases hm : tokensExpand starsToken (pyWords sel) with
    | none => rw [hm] at hi; exact absurd hi (by simp)
    | some result =>
      rw [hm] at hi
      have h1 : i ∈ (result.filter fun i => decide (1 ≤ i ∧ i ≤ maxI)).dedup :=
        (List.perm_insertionSort (· ≤ ·) _).mem_iff.mp hi
      have h2 := List.of_mem_filter (List.mem_dedup.mp h1)
      exact of_decide_eq_true h2
  · intro l h i hi
    unfold forks_parse_selection at h
    by_cases hb : isBlank sel
    · rw [if_pos hb] at h
      cases h
      exact absurd hi (by simp)
    · rw [if_neg hb] at h
      cases hm : tokensExpand forksToken (pyWords sel) with
      | none => rw [hm] at h; exact absurd h (by simp)
      | some result =>
        rw [hm] at h
        cases h
        exact of_decide_eq_true (List.mem_filter.mp hi).2
  · unfold forks_parse_selection
    rw [if_pos hb]

/-- C1 witness: on "1 3 5-7" with maxIndex 10 the stars-git parser's
output is strictly ascending and its member 7 lies in [1, 10]; a
whitespace-only input parses to [] in forks.py. -/
theorem parse_selection_bounds_sorted_witness :
    (stars_parse_selection "1 3 5-7" 10).Pairwise (· < ·) ∧
    (1 ≤ (7 : Int) ∧ (7 : Int) ≤ 10) ∧
    forks_parse_selection " " 10 = some [] := by
  refine ⟨(parse_selection_bounds_sorted "1 3 5-7" 10).1, ?_, ?_⟩
  · exact (parse_selection_bounds_sorted "1 3 5-7" 10).2.1 7 (by decide)
  · exact ((parse_selection_bounds_sorted " " 10).2.2.2 (by decide)).1

/-- C6 counterexample: stars-git.py parse_selection("7-5", 10) returns
[], not [5, 6, 7] — the reversed range is not normalized there. -/
theorem stars_range_not_normalized :
    stars_parse_selection "7-5" 10 = [] ∧ stars_parse_selection "7-5" 10 ≠ [5, 6, 7] :=
  ⟨by decide, by decide⟩

/-- C6 amended: forks.py parse_selection swaps reversed range endpoints,
so parse("7-5", 10) = [5, 6, 7] and in general a range token a-b with
values s > e expands to e..s; stars-git.py parse_selection expands
range(start, end + 1) without swapping, so a reversed range contributes
nothing and parse("7-5", 10) = []. -/
theorem range_token_swap :
    forks_parse_selection "7-5" 10 = some [5, 6, 7] ∧
    stars_parse_selection "7-5" 10 = [] ∧
    (∀ (a b : List Char) (s e : Int), ¬ '-' ∈ a → ¬ '-' ∈ b →
      pyIntChars a = some s → pyIntChars b = some e → e < s →
      forksToken (a ++ '-' :: b) = some (rangeInt e s) ∧
      starsToken (a ++ '-' :: b) = some []) :=
  ⟨by decide, by decide,
    fun a b s e ha hb hs he hlt => forksToken_append_swap a b s e ha hb hs he hlt⟩

/-- C6 witness: the token 7-5 expands to the range 5..7 in forks.py but
to nothing in stars-git.py. -/
theorem range_token_swap_witness :
    forksToken (['7'] ++ '-' :: ['5']) = some (rangeInt 5 7) ∧
    starsToken (['7'] ++ '-' :: ['5']) = some [] :=
  range_token_swap.2.2 ['7'] ['5'] 7 5 (by decide) (by decide) (by decide) (by decide)
    (by decide)
